import Mathlib

/-
Verification of the event-routing and plugin-orchestration core of
github-workflow-as-kube: a shallow embedding of the TypeScript sources
(src/utils/validator.ts, src/plugins/registry.ts, src/plugins/plugin-agent.ts,
src/handlers/event-handlers.ts, src/services/event-dispatcher.ts) as Lean
definitions, followed by theorems settling the frozen claims about them.
-/

/-! ## JavaScript value model

Payloads arrive as untyped JavaScript values; the validator probes them with
`typeof x === "object" && x !== null` and key-presence checks. We model the
fragment of JavaScript values those probes can distinguish. -/

inductive JSValue where
  | nullV
  | undefV
  | boolV (b : Bool)
  | numV (n : Int)
  | strV (s : String)
  | objV (fields : List (String × JSValue))

/-- Field access `payload.key` combined with the `key in payload` check:
returns the value only when the key is present on an object. -/
def JSValue.getField : JSValue → String → Option JSValue
  | .objV fields, k => fields.lookup k
  | _, _ => none

/-- The JavaScript test `typeof v === "object" && v !== null` (null has
typeof "object" but is excluded by the second conjunct). -/
def JSValue.isObjectNonNull : JSValue → Bool
  | .objV _ => true
  | _ => false

/-! ## EventValidator (src/utils/validator.ts)

Pure shape predicates; each `hasX` succeeds iff the named key exists on the
payload and holds a non-null structured object. -/

namespace EventValidator

def isValidEvent (payload : JSValue) : Bool :=
  payload.isObjectNonNull

def hasKeyObject (payload : JSValue) (key : String) : Bool :=
  match payload.getField key with
  | some v => v.isObjectNonNull
  | none => false

def hasRepository (payload : JSValue) : Bool := hasKeyObject payload "repository"

def hasIssue (payload : JSValue) : Bool := hasKeyObject payload "issue"

def hasPullRequest (payload : JSValue) : Bool := hasKeyObject payload "pull_request"

def hasComment (payload : JSValue) : Bool := hasKeyObject payload "comment"

def hasReview (payload : JSValue) : Bool := hasKeyObject payload "review"

end EventValidator

/-! ## Core data model (src/types) -/

/-- HandlerResult from src/types/context.ts: success flag, optional message,
took-action flag, optional named string outputs. -/
structure HandlerResult where
  success : Bool
  message : Option String := none
  tookAction : Bool
  outputs : Option (List (String × String)) := none
deriving DecidableEq

/-- EventContext from src/types/context.ts: immutable per-invocation context. -/
structure EventContext where
  eventName : String
  eventGUID : String
  repository : String
  sha : String
  ref : String
  actor : String
  workflow : String
  runId : String
  runNumber : String
deriving DecidableEq

/-- JavaScript object / Map key-value assignment: overwrite an existing key in
place (insertion order preserved), otherwise append. Used both for the
per-agent outputs record and for the fan-out result Map. -/
def mapSet {α : Type} : List (String × α) → String → α → List (String × α)
  | [], k, v => [(k, v)]
  | (k', v') :: rest, k, v =>
      if k' = k then (k, v) :: rest else (k', v') :: mapSet rest k v

/-- Per-invocation mutable result collector, PluginAgentImpl from
src/plugins/plugin-agent.ts, as an explicit state value. -/
structure AgentState where
  outputs : List (String × String) := []
  actionTaken : Bool := false
  failureMessage : Option String := none

/-- A value thrown by JavaScript code: either an Error object carrying a
message, or any non-Error value. -/
inductive JSThrown where
  | errorObj (message : String)
  | nonErrorValue (value : JSValue)

/-- The pattern `error instanceof Error ? error.message : "Unknown error"`
used at every catch site of the fan-out engine. -/
def errorMessageOf : JSThrown → String
  | .errorObj m => m
  | .nonErrorValue _ => "Unknown error"

/-- A handler invocation either returns a HandlerResult or throws. The
fan-out engine never consumes the final state of the fresh agent it passes
in (the fold reads only `result.value.result`), so the outcome records the
returned value or the thrown value only. -/
inductive HandlerOutcome where
  | ret (result : HandlerResult)
  | throwEx (e : JSThrown)

/-- A plugin handler function `(payload, context, agent) => Promise of
HandlerResult`, which may also throw. -/
abbrev HandlerFn := JSValue → EventContext → AgentState → HandlerOutcome

/-- PluginConfiguration from src/types/plugin.ts. -/
structure PluginConfiguration where
  enabled : Bool
deriving DecidableEq

/-- The capability map of a plugin (PluginHandlers in src/types/plugin.ts):
one optional handler per category key. -/
structure PluginHandlers where
  issue : Option HandlerFn := none
  issueComment : Option HandlerFn := none
  pullRequest : Option HandlerFn := none
  push : Option HandlerFn := none
  review : Option HandlerFn := none
  status : Option HandlerFn := none
  genericComment : Option HandlerFn := none

/-- Plugin from src/types/plugin.ts (help metadata carries no behavior and
is abstracted to its description text). -/
structure Plugin where
  name : String
  handlers : PluginHandlers
  help : Option String := none
  config : Option PluginConfiguration := none

/-! ## PluginRegistry (src/plugins/registry.ts)

The class wraps a `Map<string, Plugin>` keyed by name; we model it as the
insertion-ordered entry list of that map. -/

abbrev PluginRegistry := List Plugin

namespace PluginRegistry

/-- Map.set semantics of `register`: overwrite the entry with the same name
in place, otherwise append. -/
def register (reg : PluginRegistry) (p : Plugin) : PluginRegistry :=
  if reg.any (fun q => q.name = p.name) then
    reg.map (fun q => if q.name = p.name then p else q)
  else
    reg ++ [p]

def get (reg : PluginRegistry) (name : String) : Option Plugin :=
  reg.find? (fun q => q.name = name)

def getAll (reg : PluginRegistry) : List Plugin := reg

/-- Source: `this.getAll().filter((plugin) => plugin.config?.enabled !== false)`.
The optional chain `config?.enabled` is `Option.map` over the config, and the
strict inequation with `false` keeps a plugin unless the flag is present and
explicitly false. -/
def getEnabled (reg : PluginRegistry) : List Plugin :=
  (getAll reg).filter (fun p => p.config.map PluginConfiguration.enabled != some false)

/-- Common body of the six getXHandlers methods: filter the enabled plugins
down to those exposing the selected category handler, pairing each plugin
with its handler function, in registration order. -/
def getHandlers (sel : PluginHandlers → Option HandlerFn) (reg : PluginRegistry) :
    List (Plugin × HandlerFn) :=
  (getEnabled reg).filterMap (fun p => (sel p.handlers).map (fun h => (p, h)))

def getIssueHandlers (reg : PluginRegistry) : List (Plugin × HandlerFn) :=
  getHandlers PluginHandlers.issue reg

def getPullRequestHandlers (reg : PluginRegistry) : List (Plugin × HandlerFn) :=
  getHandlers PluginHandlers.pullRequest reg

def getPushHandlers (reg : PluginRegistry) : List (Plugin × HandlerFn) :=
  getHandlers PluginHandlers.push reg

def getIssueCommentHandlers (reg : PluginRegistry) : List (Plugin × HandlerFn) :=
  getHandlers PluginHandlers.issueComment reg

def getReviewHandlers (reg : PluginRegistry) : List (Plugin × HandlerFn) :=
  getHandlers PluginHandlers.review reg

def getGenericCommentHandlers (reg : PluginRegistry) : List (Plugin × HandlerFn) :=
  getHandlers PluginHandlers.genericComment reg

end PluginRegistry

/-- The handler categories the registry indexes (the keys of PluginHandlers
that the fan-out engine serves). -/
inductive HandlerCategory where
  | issue
  | issueComment
  | pullRequest
  | push
  | review
  | genericComment
deriving DecidableEq

def PluginRegistry.getHandlersFor : HandlerCategory → PluginRegistry → List (Plugin × HandlerFn)
  | .issue, reg => PluginRegistry.getIssueHandlers reg
  | .issueComment, reg => PluginRegistry.getIssueCommentHandlers reg
  | .pullRequest, reg => PluginRegistry.getPullRequestHandlers reg
  | .push, reg => PluginRegistry.getPushHandlers reg
  | .review, reg => PluginRegistry.getReviewHandlers reg
  | .genericComment, reg => PluginRegistry.getGenericCommentHandlers reg

/-! ## EventHandlers fan-out engine (src/handlers/event-handlers.ts)

Each of the six category methods has the identical body: map every
(plugin, handler) pair to an async task that runs the handler with a fresh
agent inside try/catch, join all tasks with `Promise.allSettled`, and fold
the settled values into a `Map` from plugin name to HandlerResult.

Because the try/catch converts every throw into a fulfilled value, each
settled entry is always `fulfilled`, so the fold sees one entry per pair
and the fan-out method itself is a total function: no handler exception
reaches its caller. `Promise.allSettled` yields results in input order, and
the folded Map depends only on each entry (name, result), so the embedding
settles each pair to its entry directly. -/

namespace EventHandlers

/-- One settled task: the try block keeps the returned result, the catch
block synthesizes `success := false, tookAction := false` with the message
drawn from the thrown value. -/
def settleResult : HandlerOutcome → HandlerResult
  | .ret r => r
  | .throwEx e => { success := false, message := some (errorMessageOf e), tookAction := false }

/-- The `{ pluginName, result }` value a task fulfills with. Each task
allocates a fresh agent (`new PluginAgentImpl()`). -/
def settleEntry (payload : JSValue) (ctx : EventContext) (pr : Plugin × HandlerFn) :
    String × HandlerResult :=
  (pr.1.name, settleResult (pr.2 payload ctx {}))

/-- The shared body of every fan-out method: settle all tasks, then fold
into the result Map with `resultMap.set(name, result)`. -/
def runHandlers (pairs : List (Plugin × HandlerFn)) (payload : JSValue)
    (ctx : EventContext) : List (String × HandlerResult) :=
  (pairs.map (settleEntry payload ctx)).foldl (fun m e => mapSet m e.1 e.2) []

def handleIssueEvent (registry : PluginRegistry) (payload : JSValue)
    (ctx : EventContext) : List (String × HandlerResult) :=
  runHandlers (PluginRegistry.getIssueHandlers registry) payload ctx

def handlePullRequestEvent (registry : PluginRegistry) (payload : JSValue)
    (ctx : EventContext) : List (String × HandlerResult) :=
  runHandlers (PluginRegistry.getPullRequestHandlers registry) payload ctx

def handlePushEvent (registry : PluginRegistry) (payload : JSValue)
    (ctx : EventContext) : List (String × HandlerResult) :=
  runHandlers (PluginRegistry.getPushHandlers registry) payload ctx

def handleIssueCommentEvent (registry : PluginRegistry) (payload : JSValue)
    (ctx : EventContext) : List (String × HandlerResult) :=
  runHandlers (PluginRegistry.getIssueCommentHandlers registry) payload ctx

def handleReviewEvent (registry : PluginRegistry) (payload : JSValue)
    (ctx : EventContext) : List (String × HandlerResult) :=
  runHandlers (PluginRegistry.getReviewHandlers registry) payload ctx

def handleGenericCommentEvent (registry : PluginRegistry) (payload : JSValue)
    (ctx : EventContext) : List (String × HandlerResult) :=
  runHandlers (PluginRegistry.getGenericCommentHandlers registry) payload ctx

/-- handleReviewCommentEvent delegates to handleGenericCommentEvent. -/
def handleReviewCommentEvent (registry : PluginRegistry) (payload : JSValue)
    (ctx : EventContext) : List (String × HandlerResult) :=
  handleGenericCommentEvent registry payload ctx

/-- The fan-out method serving a given handler category. -/
def handleCategoryEvent (c : HandlerCategory) (registry : PluginRegistry)
    (payload : JSValue) (ctx : EventContext) : List (String × HandlerResult) :=
  match c with
  | .issue => handleIssueEvent registry payload ctx
  | .issueComment => handleIssueCommentEvent registry payload ctx
  | .pullRequest => handlePullRequestEvent registry payload ctx
  | .push => handlePushEvent registry payload ctx
  | .review => handleReviewEvent registry payload ctx
  | .genericComment => handleGenericCommentEvent registry payload ctx

end EventHandlers

/-! ## EventDispatcher (src/services/event-dispatcher.ts) -/

namespace EventDispatcher

/-- The demultiplexer `demuxEvent`: a switch on the raw event name, guarding
each branch with the shape predicate required by the invoked category, and
returning which fan-out category is invoked (`none` when the switch falls
through a failed shape guard or hits the default branch). Note that the
issue_comment, pull_request_review and pull_request_review_comment cases all
invoke handleGenericCommentEvent. -/
def demuxEvent (eventName : String) (payload : JSValue) : Option HandlerCategory :=
  if eventName = "issues" then
    if EventValidator.hasIssue payload then some .issue else none
  else if eventName = "issue_comment" then
    if EventValidator.hasComment payload && EventValidator.hasIssue payload then
      some .genericComment
    else none
  else if eventName = "pull_request" then
    if EventValidator.hasPullRequest payload then some .pullRequest else none
  else if eventName = "pull_request_review" then
    if EventValidator.hasReview payload then some .genericComment else none
  else if eventName = "pull_request_review_comment" then
    if EventValidator.hasComment payload then some .genericComment else none
  else if eventName = "push" then
    some .push
  else none

/-- The event names appearing in the demux switch. -/
def demuxTableNames : List String :=
  ["issues", "issue_comment", "pull_request", "pull_request_review",
   "pull_request_review_comment", "push"]

/-- The built-in plugin table of registerBuiltInPlugins, in source order,
with each plugin's capability map as declared in its source file. The leaf
handler bodies are out of scope (they only make HTTP calls and return a
HandlerResult), so each is drawn from an environment `env` assigning a
handler function to the plugin name. -/
def builtInPlugins (env : String → HandlerFn) : List Plugin :=
  [ { name := "assign", handlers := { genericComment := some (env "assign") } },
    { name := "cat", handlers := { genericComment := some (env "cat") } },
    { name := "dog", handlers := { genericComment := some (env "dog") } },
    { name := "help", handlers := { genericComment := some (env "help") } },
    { name := "hold", handlers := { genericComment := some (env "hold") } },
    { name := "merge-commit-blocker", handlers := { pullRequest := some (env "merge-commit-blocker") } },
    { name := "pony", handlers := { genericComment := some (env "pony") } },
    { name := "shrug", handlers := { genericComment := some (env "shrug") } },
    { name := "size", handlers := { pullRequest := some (env "size") } },
    { name := "stage", handlers := { genericComment := some (env "stage") } },
    { name := "wip", handlers := { pullRequest := some (env "wip") } },
    { name := "yuks", handlers := { genericComment := some (env "yuks") } } ]

/-- The names of the twelve built-in plugins, in source order. -/
def builtInNames : List String :=
  ["assign", "cat", "dog", "help", "hold", "merge-commit-blocker",
   "pony", "shrug", "size", "stage", "wip", "yuks"]

/-- registerBuiltInPlugins: walk the built-in table and register exactly the
plugins whose name occurs in the enabled list, setting
`plugin.config = { enabled: true }` first. Names in the enabled list that
match no built-in are skipped silently. -/
def registerBuiltInPlugins (enabledPlugins : List String) (env : String → HandlerFn) :
    PluginRegistry :=
  (builtInPlugins env).foldl
    (fun reg plugin =>
      if enabledPlugins.contains plugin.name then
        PluginRegistry.register reg { plugin with config := some { enabled := true } }
      else reg)
    []

/-- JavaScript `s.split(",")` over the character list: every comma is a
separator, empty fields are kept, and the empty string yields one empty
field. -/
def splitOnCommaChars : List Char → List (List Char)
  | [] => [[]]
  | c :: cs =>
      if c = ',' then [] :: splitOnCommaChars cs
      else
        match splitOnCommaChars cs with
        | [] => [[c]]
        | w :: ws => (c :: w) :: ws

def jsSplitOnComma (s : String) : List String :=
  (splitOnCommaChars s.data).map (fun cs => String.mk cs)

/-- JavaScript `s.trim()`: strip leading and trailing whitespace. -/
def jsTrim (s : String) : String :=
  String.mk (((s.data.dropWhile Char.isWhitespace).reverse.dropWhile
    Char.isWhitespace).reverse)

/-- Parsing of the plugins input in dispatch:
`(core.getInput("plugins") || "dog").split(",").map(trim).filter(nonempty)`.
getInput returns the empty string when the input is unset, and the || makes
the literal default "dog" cover both the absent and the empty input. -/
def parsePluginsList (raw : String) : List String :=
  ((jsSplitOnComma (if raw = "" then "dog" else raw)).map jsTrim).filter
    (fun p => 0 < p.length)

/-- The values github.context supplies to the dispatcher, together with the
two action inputs read via core.getInput (which yields the empty string for
an unset input). -/
structure DispatchInputs where
  githubToken : String
  plugins : String
  eventName : String
  payload : JSValue
  runId : String
  runNumber : String
  repoOwner : String
  repoName : String
  sha : String
  ref : String
  actor : String
  workflow : String

/-- The EventContext built by the constructor from github.context
(eventGUID and runId both come from context.runId, repository is
`owner + "/" + repo`). -/
def buildContext (i : DispatchInputs) : EventContext :=
  { eventName := i.eventName
    eventGUID := i.runId
    repository := i.repoOwner ++ "/" ++ i.repoName
    sha := i.sha
    ref := i.ref
    actor := i.actor
    workflow := i.workflow
    runId := i.runId
    runNumber := i.runNumber }

/-- Observable actions of one dispatch() invocation, in execution order:
reading the two inputs, registering a plugin, the isValidEvent check, the
demux switch, one handler invocation per matched plugin, and each
core.setOutput call. -/
inductive Step where
  | readTokenInput
  | readPluginsInput
  | registerPlugin (name : String)
  | validatePayload
  | demux
  | handlerRun (plugin : String)
  | emitOutput (name : String)
deriving DecidableEq

/-- Overall outcome of dispatch(): normal completion carrying the outputs
emitted via core.setOutput, or core.setFailed with the caught error message. -/
inductive DispatchResult where
  | ok (outputs : List (String × String))
  | failed (message : String)
deriving DecidableEq

/-- The handler invocations performed for the demuxed category: one per
(plugin, handler) pair the registry yields for it. -/
def categoryRuns (reg : PluginRegistry) : Option HandlerCategory → List Step
  | none => []
  | some c => (PluginRegistry.getHandlersFor c reg).map (fun pr => Step.handlerRun pr.1.name)

/-- dispatch(), with its observable steps as an explicit trace. The body is
one try/catch; the two throw sites inside the try are
`core.getInput("github-token", { required: true })` (which, per the
@actions/core contract, throws "Input required and not supplied: ..." when
the input is unset) and the `isValidEvent` guard; the catch reports the
message via core.setFailed. Handler exceptions never reach dispatch: every
fan-out method is total (see runHandlers). The workflow_data output carries
a JSON rendering of context, inputs and environment whose text is
irrelevant to every claim here; it is abstracted as the `workflowDataJson`
argument. -/
def dispatch (inputs : DispatchInputs) (env : String → HandlerFn)
    (workflowDataJson : String) : DispatchResult × List Step :=
  if inputs.githubToken = "" then
    (.failed "Input required and not supplied: github-token", [.readTokenInput])
  else
    let ctx := buildContext inputs
    let enabledPlugins := parsePluginsList inputs.plugins
    let reg := registerBuiltInPlugins enabledPlugins env
    let pre := [Step.readTokenInput, Step.readPluginsInput] ++
      reg.map (fun p => Step.registerPlugin p.name)
    if EventValidator.isValidEvent inputs.payload then
      let runs := categoryRuns reg (demuxEvent ctx.eventName inputs.payload)
      let outs := [("event_name", ctx.eventName), ("event_guid", ctx.eventGUID),
        ("repository", ctx.repository),
        ("plugins_enabled", String.intercalate "," enabledPlugins),
        ("workflow_data", workflowDataJson)]
      (.ok outs, pre ++ [.validatePayload, .demux] ++ runs ++
        outs.map (fun o => Step.emitOutput o.1))
    else
      (.failed "Invalid event payload", pre ++ [.validatePayload])

/-- The plugin names a trace records as registered. -/
def registeredNames (trace : List Step) : List String :=
  trace.filterMap (fun s => match s with | Step.registerPlugin n => some n | _ => none)

end EventDispatcher

/-! ## PluginAgentImpl reference semantics (src/plugins/plugin-agent.ts)

The copy-semantics claim about `getOutputs()` is a statement about
JavaScript object aliasing: `getOutputs` returns `{ ...this.outputs }`, a
fresh shallow copy, not the live `this.outputs` reference. To make aliasing
observable we model the plain-object heap explicitly: a list of records
indexed by reference, with the agent's private outputs field holding one
reference. `getOutputs` allocates a fresh record holding a copy of the
current outputs and returns its reference; `setOutput` mutates the record
behind the outputs field in place. (Output values are strings, so the
shallow spread copies everything.) -/

namespace PluginAgentImpl

structure AgentMem where
  records : List (List (String × String))
  outputsRef : Nat

/-- `new PluginAgentImpl()`: allocates one empty outputs record. -/
def newAgent : AgentMem := { records := [[]], outputsRef := 0 }

/-- `setOutput(name, value)`: `this.outputs[name] = value`, an in-place
property assignment on the record the outputs field references. -/
def setOutput (st : AgentMem) (name value : String) : AgentMem :=
  { st with records :=
      st.records.set st.outputsRef (mapSet (st.records.getD st.outputsRef []) name value) }

/-- `getOutputs()`: `return { ...this.outputs }` — allocates a fresh record
containing a copy of the current outputs and returns its reference. -/
def getOutputs (st : AgentMem) : AgentMem × Nat :=
  ({ st with records := st.records ++ [st.records.getD st.outputsRef []] },
   st.records.length)

/-- Dereference: the record a reference points at. -/
def readRecord (st : AgentMem) (r : Nat) : List (String × String) :=
  st.records.getD r []

/-- One mutating or copying operation on the agent. -/
inductive AgentOp where
  | setOut (name value : String)
  | getOuts

def applyOp (st : AgentMem) : AgentOp → AgentMem
  | .setOut n v => setOutput st n v
  | .getOuts => (getOutputs st).1

/-- The heap after running any operation sequence on a fresh agent. -/
def applyOps (ops : List AgentOp) : AgentMem :=
  ops.foldl applyOp newAgent

end PluginAgentImpl

/-! ## Lemmas about the fan-out fold -/

theorem mapSet_of_fresh {α : Type} (m : List (String × α)) (k : String) (v : α)
    (h : ∀ x ∈ m, x.1 ≠ k) : mapSet m k v = m ++ [(k, v)] := by
  induction m with
  | nil => rfl
  | cons a rest ih =>
      obtain ⟨k', v'⟩ := a
      simp only [mapSet]
      rw [if_neg (h (k', v') (List.mem_cons_self _ _))]
      rw [ih (fun x hx => h x (List.mem_cons_of_mem _ hx))]
      simp

theorem foldl_mapSet_of_nodup {α : Type} (entries : List (String × α)) :
    ∀ m : List (String × α), ((m ++ entries).map Prod.fst).Nodup →
      entries.foldl (fun acc e => mapSet acc e.1 e.2) m = m ++ entries := by
  induction entries with
  | nil => intro m _; simp
  | cons e es ih =>
      intro m h
      obtain ⟨k, v⟩ := e
      have hfresh : ∀ x ∈ m, x.1 ≠ k := by
        intro x hx
        have hm := List.nodup_append.mp (by simpa using h)
        have hdisj := hm.2.2
        have hxk : x.1 ∈ m.map Prod.fst := List.mem_map_of_mem _ hx
        intro hc
        exact hdisj hxk (by simp [hc])
      rw [List.foldl_cons]
      have hstep : mapSet m k v = m ++ [(k, v)] := mapSet_of_fresh m k v hfresh
      simp only [hstep]
      have h2 : (((m ++ [(k, v)]) ++ es).map Prod.fst).Nodup := by
        simpa [List.append_assoc] using h
      have := ih (m ++ [(k, v)]) h2
      simpa [List.append_assoc] using this

theorem runHandlers_eq_map (pairs : List (Plugin × HandlerFn)) (payload : JSValue)
    (ctx : EventContext) (h : (pairs.map (fun pr => pr.1.name)).Nodup) :
    EventHandlers.runHandlers pairs payload ctx
      = pairs.map (EventHandlers.settleEntry payload ctx) := by
  unfold EventHandlers.runHandlers
  have hk : ((pairs.map (EventHandlers.settleEntry payload ctx)).map Prod.fst).Nodup := by
    simpa [List.map_map, Function.comp, EventHandlers.settleEntry] using h
  simpa using foldl_mapSet_of_nodup (pairs.map (EventHandlers.settleEntry payload ctx)) [] (by simpa using hk)

theorem lookup_map_settle (pairs : List (Plugin × HandlerFn)) (payload : JSValue)
    (ctx : EventContext) (pr : Plugin × HandlerFn) (hmem : pr ∈ pairs)
    (h : (pairs.map (fun q => q.1.name)).Nodup) :
    (pairs.map (EventHandlers.settleEntry payload ctx)).lookup pr.1.name
      = some (EventHandlers.settleResult (pr.2 payload ctx {})) := by
  induction pairs with
  | nil => cases hmem
  | cons q qs ih =>
      rcases List.mem_cons.mp hmem with h1 | h2
      · subst h1
        simp [List.lookup, EventHandlers.settleEntry]
      · have h' : (q.1.name :: qs.map (fun r => r.1.name)).Nodup := by
          simpa only [List.map_cons] using h
        have hq : q.1.name ∉ qs.map (fun r => r.1.name) := (List.nodup_cons.mp h').1
        have hne : (pr.1.name == q.1.name) = false := by
          rw [beq_eq_false_iff_ne]
          intro hc
          exact hq (hc ▸ List.mem_map_of_mem _ h2)
        simp only [List.map_cons, List.lookup, EventHandlers.settleEntry, hne]
        exact ih h2 (List.nodup_cons.mp h').2

theorem filterMap_pair_fst_sublist (l : List Plugin) (sel : Plugin → Option HandlerFn) :
    ((l.filterMap (fun p => (sel p).map (fun h => (p, h)))).map Prod.fst).Sublist l := by
  induction l with
  | nil => simp
  | cons p ps ih =>
      cases hs : sel p with
      | none =>
          simp only [List.filterMap_cons, hs, Option.map_none']
          exact ih.cons p
      | some hf =>
          simp only [List.filterMap_cons, hs, Option.map_some', List.map_cons]
          exact ih.cons₂ p

theorem getHandlers_names_sublist (sel : PluginHandlers → Option HandlerFn)
    (reg : PluginRegistry) :
    ((PluginRegistry.getHandlers sel reg).map (fun pr => pr.1.name)).Sublist
      (reg.map Plugin.name) := by
  have h1 := filterMap_pair_fst_sublist (PluginRegistry.getEnabled reg)
    (fun p => sel p.handlers)
  have h2 : (PluginRegistry.getEnabled reg).Sublist reg := List.filter_sublist _
  have h3 := (h1.trans h2).map Plugin.name
  simpa [PluginRegistry.getHandlers, List.map_map, Function.comp] using h3

theorem getHandlersFor_names_nodup (c : HandlerCategory) (reg : PluginRegistry)
    (h : (reg.map Plugin.name).Nodup) :
    ((PluginRegistry.getHandlersFor c reg).map (fun pr => pr.1.name)).Nodup := by
  cases c <;>
    exact (getHandlers_names_sublist _ reg).nodup h

theorem handleCategoryEvent_eq_run (c : HandlerCategory) (reg : PluginRegistry)
    (payload : JSValue) (ctx : EventContext) :
    EventHandlers.handleCategoryEvent c reg payload ctx
      = EventHandlers.runHandlers (PluginRegistry.getHandlersFor c reg) payload ctx := by
  cases c <;> rfl

/-- C1: for every handler category, the fan-out method returns a map with one
entry per (enabled, matching) plugin, keyed by plugin name: a handler that
throws is mapped to the synthesized HandlerResult with success=false,
tookAction=false and the message drawn from the thrown value, and every
other handler is mapped to the HandlerResult it returned. The fan-out is a
total function of the individual outcomes, so no handler exception reaches
its caller, and the settled aggregate is independent of latency or throw
timing. -/
theorem fanout_settles_all_enabled_handlers (c : HandlerCategory)
    (reg : PluginRegistry) (payload : JSValue) (ctx : EventContext)
    (hwf : (reg.map Plugin.name).Nodup) :
    (EventHandlers.handleCategoryEvent c reg payload ctx).length
        = (PluginRegistry.getHandlersFor c reg).length ∧
    ∀ pr ∈ PluginRegistry.getHandlersFor c reg,
      (EventHandlers.handleCategoryEvent c reg payload ctx).lookup pr.1.name
        = some (EventHandlers.settleResult (pr.2 payload ctx {})) := by
  have hnd := getHandlersFor_names_nodup c reg hwf
  rw [handleCategoryEvent_eq_run, runHandlers_eq_map _ _ _ hnd]
  constructor
  · simp
  · intro pr hpr
    exact lookup_map_settle _ payload ctx pr hpr hnd

def w1ThrowFn : HandlerFn := fun _ _ _ => .throwEx (.errorObj "boom")

def w1RetFn : HandlerFn := fun _ _ _ => .ret { success := true, tookAction := true }

def w1PluginA : Plugin :=
  { name := "hold", handlers := { genericComment := some w1ThrowFn } }

def w1PluginB : Plugin :=
  { name := "dog", handlers := { genericComment := some w1RetFn } }

def w1Reg : PluginRegistry := [w1PluginA, w1PluginB]

def w1Ctx : EventContext :=
  { eventName := "issue_comment", eventGUID := "guid-1", repository := "o/r",
    sha := "s", ref := "refs/heads/main", actor := "a", workflow := "w",
    runId := "1", runNumber := "1" }

def w1Payload : JSValue :=
  .objV [("comment", .objV [("body", .strV "/woof")]), ("issue", .objV [])]

theorem fanout_settles_all_enabled_handlers_witness :
    (w1Reg.map Plugin.name).Nodup ∧
    (EventHandlers.handleCategoryEvent .genericComment w1Reg w1Payload w1Ctx).length
        = (PluginRegistry.getHandlersFor .genericComment w1Reg).length ∧
    (EventHandlers.handleCategoryEvent .genericComment w1Reg w1Payload w1Ctx).lookup "hold"
        = some { success := false, message := some "boom", tookAction := false } ∧
    (EventHandlers.handleCategoryEvent .genericComment w1Reg w1Payload w1Ctx).lookup "dog"
        = some { success := true, tookAction := true } := by
  have hov : (w1Reg.map Plugin.name).Nodup := by decide
  refine ⟨hov,
    (fanout_settles_all_enabled_handlers .genericComment w1Reg w1Payload w1Ctx hov).1,
    by rfl, by rfl⟩

/-- C10: in every fan-out method, a handler that throws a value that is not
an Error instance is mapped to a synthesized failed HandlerResult whose
message is the literal string "Unknown error"; only an Error instance has
its own message propagated. -/
theorem thrown_nonError_yields_unknown_error_message (c : HandlerCategory)
    (reg : PluginRegistry) (payload : JSValue) (ctx : EventContext)
    (hwf : (reg.map Plugin.name).Nodup) (pr : Plugin × HandlerFn)
    (hmem : pr ∈ PluginRegistry.getHandlersFor c reg) :
    (∀ v : JSValue, pr.2 payload ctx {} = .throwEx (.nonErrorValue v) →
      (EventHandlers.handleCategoryEvent c reg payload ctx).lookup pr.1.name
        = some { success := false, message := some "Unknown error", tookAction := false }) ∧
    (∀ m : String, pr.2 payload ctx {} = .throwEx (.errorObj m) →
      (EventHandlers.handleCategoryEvent c reg payload ctx).lookup pr.1.name
        = some { success := false, message := some m, tookAction := false }) := by
  have hnd := getHandlersFor_names_nodup c reg hwf
  have hbase :
      (EventHandlers.handleCategoryEvent c reg payload ctx).lookup pr.1.name
        = some (EventHandlers.settleResult (pr.2 payload ctx {})) := by
    rw [handleCategoryEvent_eq_run, runHandlers_eq_map _ _ _ hnd]
    exact lookup_map_settle _ payload ctx pr hmem hnd
  constructor
  · intro v hv
    rw [hbase, hv]
    rfl
  · intro m hm
    rw [hbase, hm]
    rfl

def c10Fn : HandlerFn := fun _ _ _ => .throwEx (.nonErrorValue (.strV "oops"))

def c10Plugin : Plugin :=
  { name := "cat", handlers := { genericComment := some c10Fn } }

def c10Reg : PluginRegistry := [c10Plugin]

theorem thrown_nonError_yields_unknown_error_message_witness :
    (c10Reg.map Plugin.name).Nodup ∧
    (EventHandlers.handleCategoryEvent .genericComment c10Reg w1Payload w1Ctx).lookup "cat"
      = some { success := false, message := some "Unknown error", tookAction := false } := by
  have hov : (c10Reg.map Plugin.name).Nodup := by decide
  have hmem : (c10Plugin, c10Fn) ∈ PluginRegistry.getHandlersFor .genericComment c10Reg := by
    show (c10Plugin, c10Fn) ∈ [(c10Plugin, c10Fn)]
    exact List.mem_singleton.mpr rfl
  exact ⟨hov,
    (thrown_nonError_yields_unknown_error_message .genericComment c10Reg w1Payload w1Ctx
      hov (c10Plugin, c10Fn) hmem).1 (.strV "oops") rfl⟩

/-- C3: getEnabled() excludes a registered plugin if and only if it carries a
configuration whose enabled flag is explicitly false; a plugin with no
configuration at all is included. -/
theorem getEnabled_iff_not_explicitly_disabled (reg : PluginRegistry) (p : Plugin)
    (hmem : p ∈ PluginRegistry.getAll reg) :
    (p ∉ PluginRegistry.getEnabled reg ↔
      p.config.map PluginConfiguration.enabled = some false) ∧
    (p.config = none → p ∈ PluginRegistry.getEnabled reg) := by
  constructor
  · constructor
    · intro hnot
      by_contra hne
      exact hnot (List.mem_filter.mpr ⟨hmem, by simpa [bne_iff_ne] using hne⟩)
    · intro hcfg hmemEn
      have hpred := (List.mem_filter.mp hmemEn).2
      rw [hcfg] at hpred
      simp at hpred
  · intro hnone
    exact List.mem_filter.mpr ⟨hmem, by simp [hnone]⟩

def c3Disabled : Plugin :=
  { name := "size", handlers := {}, config := some { enabled := false } }

def c3NoConfig : Plugin := { name := "dog", handlers := {} }

def c3Reg : PluginRegistry := [c3NoConfig, c3Disabled]

theorem getEnabled_iff_not_explicitly_disabled_witness :
    c3Disabled ∈ PluginRegistry.getAll c3Reg ∧
    c3Disabled ∉ PluginRegistry.getEnabled c3Reg ∧
    c3NoConfig ∈ PluginRegistry.getEnabled c3Reg := by
  have hmemD : c3Disabled ∈ PluginRegistry.getAll c3Reg :=
    List.mem_cons_of_mem _ (List.mem_cons_self _ _)
  have hmemN : c3NoConfig ∈ PluginRegistry.getAll c3Reg := List.mem_cons_self _ _
  exact ⟨hmemD,
    ((getEnabled_iff_not_explicitly_disabled c3Reg c3Disabled hmemD).1).mpr rfl,
    (getEnabled_iff_not_explicitly_disabled c3Reg c3NoConfig hmemN).2 rfl⟩

/-- C2: the demultiplexer routes issue_comment (given comment and issue
substructures), pull_request_review (given a review substructure) and
pull_request_review_comment (given a comment substructure) all to the single
generic-comment fan-out; issues (given an issue substructure) routes to the
issue category and pull_request (given a pull_request substructure) to the
pull-request category, the three categories being pairwise distinct; and
push routes to the push category with no shape predicate. -/
theorem demux_routing_table (payload : JSValue) :
    (EventValidator.hasComment payload = true → EventValidator.hasIssue payload = true →
      EventDispatcher.demuxEvent "issue_comment" payload = some .genericComment) ∧
    (EventValidator.hasReview payload = true →
      EventDispatcher.demuxEvent "pull_request_review" payload = some .genericComment) ∧
    (EventValidator.hasComment payload = true →
      EventDispatcher.demuxEvent "pull_request_review_comment" payload = some .genericComment) ∧
    (EventValidator.hasIssue payload = true →
      EventDispatcher.demuxEvent "issues" payload = some .issue) ∧
    (EventValidator.hasPullRequest payload = true →
      EventDispatcher.demuxEvent "pull_request" payload = some .pullRequest) ∧
    EventDispatcher.demuxEvent "push" payload = some .push ∧
    HandlerCategory.issue ≠ HandlerCategory.pullRequest ∧
    HandlerCategory.issue ≠ HandlerCategory.genericComment ∧
    HandlerCategory.pullRequest ≠ HandlerCategory.genericComment := by
  refine ⟨?_, ?_, ?_, ?_, ?_, ?_, by decide, by decide, by decide⟩
  · intro h1 h2
    simp [EventDispatcher.demuxEvent, h1, h2]
  · intro h1
    simp [EventDispatcher.demuxEvent, h1]
  · intro h1
    simp [EventDispatcher.demuxEvent, h1]
  · intro h1
    simp [EventDispatcher.demuxEvent, h1]
  · intro h1
    simp [EventDispatcher.demuxEvent, h1]
  · simp [EventDispatcher.demuxEvent]

theorem demux_routing_table_witness :
    EventValidator.hasComment w1Payload = true ∧
    EventValidator.hasIssue w1Payload = true ∧
    EventDispatcher.demuxEvent "issue_comment" w1Payload = some .genericComment ∧
    EventDispatcher.demuxEvent "push" w1Payload = some .push := by
  refine ⟨by decide, by decide, ?_, ?_⟩
  · exact (demux_routing_table w1Payload).1 (by decide) (by decide)
  · exact (demux_routing_table w1Payload).2.2.2.2.2.1

/-! ## PluginAgentImpl copy semantics -/

theorem applyOps_ref_lt (ops : List PluginAgentImpl.AgentOp) :
    (PluginAgentImpl.applyOps ops).outputsRef
      < (PluginAgentImpl.applyOps ops).records.length := by
  suffices h : ∀ st : PluginAgentImpl.AgentMem,
      st.outputsRef < st.records.length →
      (ops.foldl PluginAgentImpl.applyOp st).outputsRef
        < (ops.foldl PluginAgentImpl.applyOp st).records.length by
    exact h PluginAgentImpl.newAgent (by simp [PluginAgentImpl.newAgent])
  induction ops with
  | nil => intro st hst; simpa using hst
  | cons op rest ih =>
      intro st hst
      rw [List.foldl_cons]
      apply ih
      cases op with
      | setOut n v =>
          simpa [PluginAgentImpl.applyOp, PluginAgentImpl.setOutput] using hst
      | getOuts =>
          simp only [PluginAgentImpl.applyOp, PluginAgentImpl.getOutputs,
            List.length_append, List.length_singleton]
          omega

/-- C8: the map `getOutputs()` returns is a copy, not a live reference: for
every operation sequence on a fresh PluginAgentImpl, calling
`setOutput(name, value)` after a `getOutputs()` call leaves the record that
the earlier `getOutputs()` call returned untouched (and that record holds
exactly the outputs accumulated at the time of the call). -/
theorem getOutputs_defensive_copy (ops : List PluginAgentImpl.AgentOp)
    (name value : String) :
    PluginAgentImpl.readRecord
        (PluginAgentImpl.setOutput
          (PluginAgentImpl.getOutputs (PluginAgentImpl.applyOps ops)).1 name value)
        (PluginAgentImpl.getOutputs (PluginAgentImpl.applyOps ops)).2
      = PluginAgentImpl.readRecord
          (PluginAgentImpl.getOutputs (PluginAgentImpl.applyOps ops)).1
          (PluginAgentImpl.getOutputs (PluginAgentImpl.applyOps ops)).2 ∧
    PluginAgentImpl.readRecord
        (PluginAgentImpl.getOutputs (PluginAgentImpl.applyOps ops)).1
        (PluginAgentImpl.getOutputs (PluginAgentImpl.applyOps ops)).2
      = PluginAgentImpl.readRecord (PluginAgentImpl.applyOps ops)
          (PluginAgentImpl.applyOps ops).outputsRef := by
  have hlt := applyOps_ref_lt ops
  set st := PluginAgentImpl.applyOps ops with hst
  have hcopy :
      PluginAgentImpl.readRecord
        (PluginAgentImpl.getOutputs st).1 (PluginAgentImpl.getOutputs st).2
        = PluginAgentImpl.readRecord st st.outputsRef := by
    simp only [PluginAgentImpl.readRecord, PluginAgentImpl.getOutputs, List.getD,
      List.get?_eq_getElem?]
    rw [List.getElem?_concat_length]
    rfl
  refine ⟨?_, hcopy⟩
  have hne : st.outputsRef ≠ st.records.length := Nat.ne_of_lt hlt
  simp only [PluginAgentImpl.readRecord, PluginAgentImpl.setOutput,
    PluginAgentImpl.getOutputs, List.getD, List.get?_eq_getElem?]
  rw [List.getElem?_set_ne hne]

/-! ## Lemmas about plugin registration in dispatch -/

theorem register_fresh (reg : PluginRegistry) (p : Plugin)
    (h : ∀ q ∈ reg, q.name ≠ p.name) :
    PluginRegistry.register reg p = reg ++ [p] := by
  unfold PluginRegistry.register
  rw [if_neg]
  simp only [List.any_eq_true, decide_eq_true_eq, not_exists]
  intro q hq
  exact h q hq.1 hq.2

theorem registerLoop_names (enabled : List String) :
    ∀ (ps : List Plugin) (reg : PluginRegistry),
      (∀ q ∈ reg, ∀ p ∈ ps, q.name ≠ p.name) →
      (ps.map Plugin.name).Nodup →
      ((ps.foldl
          (fun r p =>
            if enabled.contains p.name then
              PluginRegistry.register r { p with config := some { enabled := true } }
            else r)
          reg).map Plugin.name)
        = reg.map Plugin.name
            ++ (ps.map Plugin.name).filter (fun n => enabled.contains n) := by
  intro ps
  induction ps with
  | nil => intro reg _ _; simp
  | cons p ps ih =>
      intro reg hdis hnd
      have hnd' : (ps.map Plugin.name).Nodup :=
        (List.nodup_cons.mp (by simpa only [List.map_cons] using hnd)).2
      have hp : p.name ∉ ps.map Plugin.name :=
        (List.nodup_cons.mp (by simpa only [List.map_cons] using hnd)).1
      by_cases hc : enabled.contains p.name
      · have hc2 : p.name ∈ enabled := by simpa using hc
        rw [List.foldl_cons, if_pos hc]
        rw [register_fresh reg { p with config := some { enabled := true } }
          (fun q hq => hdis q hq p (List.mem_cons_self _ _))]
        have hdis' : ∀ q ∈ reg ++ [{ p with config := some { enabled := true } }],
            ∀ r ∈ ps, q.name ≠ r.name := by
          intro q hq r hr
          rcases List.mem_append.mp hq with h1 | h2
          · exact hdis q h1 r (List.mem_cons_of_mem _ hr)
          · have : q = { p with config := some { enabled := true } } := by
              simpa using h2
            subst this
            intro hcname
            exact hp (hcname ▸ List.mem_map_of_mem _ hr)
        have hih := ih (reg ++ [{ p with config := some { enabled := true } }]) hdis' hnd'
        rw [hih]
        simp [List.filter_cons, hc, hc2, List.append_assoc]
      · have hc2 : p.name ∉ enabled := by simpa using hc
        rw [List.foldl_cons, if_neg hc]
        have hih := ih reg (fun q hq r hr => hdis q hq r (List.mem_cons_of_mem _ hr)) hnd'
        rw [hih]
        simp [List.filter_cons, hc, hc2]

theorem builtInPlugins_names (env : String → HandlerFn) :
    (EventDispatcher.builtInPlugins env).map Plugin.name = EventDispatcher.builtInNames := rfl

theorem registerBuiltInPlugins_names (enabled : List String) (env : String → HandlerFn) :
    (EventDispatcher.registerBuiltInPlugins enabled env).map Plugin.name
      = EventDispatcher.builtInNames.filter (fun n => enabled.contains n) := by
  unfold EventDispatcher.registerBuiltInPlugins
  rw [registerLoop_names enabled (EventDispatcher.builtInPlugins env) [] (by simp)
    (by rw [builtInPlugins_names]; decide)]
  rw [builtInPlugins_names]
  rfl

theorem registerBuiltInPlugins_nodup (enabled : List String) (env : String → HandlerFn) :
    ((EventDispatcher.registerBuiltInPlugins enabled env).map Plugin.name).Nodup := by
  rw [registerBuiltInPlugins_names]
  exact (List.filter_sublist _).nodup (by decide)

theorem registeredNames_categoryRuns (reg : PluginRegistry)
    (oc : Option HandlerCategory) :
    EventDispatcher.registeredNames (EventDispatcher.categoryRuns reg oc) = [] := by
  cases oc with
  | none => rfl
  | some c =>
      simp [EventDispatcher.registeredNames, EventDispatcher.categoryRuns,
        List.filterMap_map, Function.comp]

theorem handlerRun_not_mem_registerSteps (reg : PluginRegistry) (n : String) :
    EventDispatcher.Step.handlerRun n
      ∉ reg.map (fun p => EventDispatcher.Step.registerPlugin p.name) := by
  intro hmem
  rcases List.mem_map.mp hmem with ⟨p, _, hp⟩
  cases hp

/-! ## Dispatch evaluation lemmas -/

theorem dispatch_invalid_eq (inputs : EventDispatcher.DispatchInputs)
    (env : String → HandlerFn) (json : String)
    (htok : inputs.githubToken ≠ "")
    (hbad : EventValidator.isValidEvent inputs.payload = false) :
    EventDispatcher.dispatch inputs env json
      = (.failed "Invalid event payload",
         ([EventDispatcher.Step.readTokenInput, EventDispatcher.Step.readPluginsInput] ++
            (EventDispatcher.registerBuiltInPlugins
                (EventDispatcher.parsePluginsList inputs.plugins) env).map
              (fun p => EventDispatcher.Step.registerPlugin p.name)) ++
           [EventDispatcher.Step.validatePayload]) := by
  unfold EventDispatcher.dispatch
  rw [if_neg htok]
  simp only [hbad, Bool.false_eq_true, if_false]

theorem dispatch_ok_eq (inputs : EventDispatcher.DispatchInputs)
    (env : String → HandlerFn) (json : String)
    (htok : inputs.githubToken ≠ "")
    (hval : EventValidator.isValidEvent inputs.payload = true) :
    EventDispatcher.dispatch inputs env json
      = (.ok [("event_name", (EventDispatcher.buildContext inputs).eventName),
              ("event_guid", (EventDispatcher.buildContext inputs).eventGUID),
              ("repository", (EventDispatcher.buildContext inputs).repository),
              ("plugins_enabled", String.intercalate ","
                  (EventDispatcher.parsePluginsList inputs.plugins)),
              ("workflow_data", json)],
         ([EventDispatcher.Step.readTokenInput, EventDispatcher.Step.readPluginsInput] ++
            (EventDispatcher.registerBuiltInPlugins
                (EventDispatcher.parsePluginsList inputs.plugins) env).map
              (fun p => EventDispatcher.Step.registerPlugin p.name)) ++
           [EventDispatcher.Step.validatePayload, EventDispatcher.Step.demux] ++
           EventDispatcher.categoryRuns
             (EventDispatcher.registerBuiltInPlugins
               (EventDispatcher.parsePluginsList inputs.plugins) env)
             (EventDispatcher.demuxEvent (EventDispatcher.buildContext inputs).eventName
               inputs.payload) ++
           [EventDispatcher.Step.emitOutput "event_name",
            EventDispatcher.Step.emitOutput "event_guid",
            EventDispatcher.Step.emitOutput "repository",
            EventDispatcher.Step.emitOutput "plugins_enabled",
            EventDispatcher.Step.emitOutput "workflow_data"]) := by
  unfold EventDispatcher.dispatch
  rw [if_neg htok]
  simp only [hval, eq_self_iff_true, if_true]
  rfl

def okEnv : String → HandlerFn :=
  fun _ => fun _ _ _ => .ret { success := true, tookAction := false }

/-- C6: when the required github-token input is missing, dispatch() completes
with the single invocation-level failure and no plugin handler is ever
invoked. -/
theorem dispatch_missing_token_fails_without_handlers
    (inputs : EventDispatcher.DispatchInputs) (env : String → HandlerFn)
    (json : String) (h : inputs.githubToken = "") :
    (EventDispatcher.dispatch inputs env json).1
      = .failed "Input required and not supplied: github-token" ∧
    ∀ n, EventDispatcher.Step.handlerRun n
      ∉ (EventDispatcher.dispatch inputs env json).2 := by
  unfold EventDispatcher.dispatch
  rw [if_pos h]
  refine ⟨rfl, ?_⟩
  intro n hmem
  simp at hmem

def c6Inputs : EventDispatcher.DispatchInputs :=
  { githubToken := "", plugins := "dog", eventName := "issues",
    payload := .objV [("issue", .objV [])], runId := "7", runNumber := "1",
    repoOwner := "o", repoName := "r", sha := "abc", ref := "refs/heads/main",
    actor := "alice", workflow := "ci" }

theorem dispatch_missing_token_fails_without_handlers_witness :
    c6Inputs.githubToken = "" ∧
    (EventDispatcher.dispatch c6Inputs okEnv "json").1
      = .failed "Input required and not supplied: github-token" ∧
    EventDispatcher.Step.handlerRun "dog"
      ∉ (EventDispatcher.dispatch c6Inputs okEnv "json").2 := by
  have h := dispatch_missing_token_fails_without_handlers c6Inputs okEnv "json" rfl
  exact ⟨rfl, h.1, h.2 "dog"⟩

def c4Inputs : EventDispatcher.DispatchInputs :=
  { githubToken := "token", plugins := "", eventName := "issues",
    payload := .nullV, runId := "7", runNumber := "1",
    repoOwner := "o", repoName := "r", sha := "abc", ref := "refs/heads/main",
    actor := "alice", workflow := "ci" }

/-- C4 counterexample: with the github-token input present, the plugins input
unset (so the default "dog" applies) and a null, hence invalid, payload,
the step trace of dispatch() reads both inputs and registers the dog plugin
strictly before the isValidEvent check runs, so payload validation is not
the very first step and does not precede plugin registration. -/
theorem dispatch_validates_after_registration_cex :
    (EventDispatcher.dispatch c4Inputs okEnv "json").2
      = [.readTokenInput, .readPluginsInput, .registerPlugin "dog",
         .validatePayload] ∧
    (EventDispatcher.dispatch c4Inputs okEnv "json").2.head?
      ≠ some .validatePayload := by
  refine ⟨by rfl, by decide⟩

/-- C4 amended: in dispatch(), the isValidEvent check runs after the
github-token and plugins inputs are read and after the configured plugins
are registered, but before the demux switch and before any handler is
invoked; an invalid payload aborts the entire invocation with the single
invocation-level fatal error "Invalid event payload", not a per-plugin
failure. -/
theorem dispatch_validation_before_demux
    (inputs : EventDispatcher.DispatchInputs) (env : String → HandlerFn)
    (json : String)
    (htok : inputs.githubToken ≠ "")
    (hbad : EventValidator.isValidEvent inputs.payload = false) :
    (EventDispatcher.dispatch inputs env json).1 = .failed "Invalid event payload" ∧
    (∀ n, EventDispatcher.Step.handlerRun n
      ∉ (EventDispatcher.dispatch inputs env json).2) ∧
    EventDispatcher.Step.demux ∉ (EventDispatcher.dispatch inputs env json).2 ∧
    (EventDispatcher.dispatch inputs env json).2.getLast?
      = some .validatePayload := by
  rw [dispatch_invalid_eq inputs env json htok hbad]
  refine ⟨rfl, ?_, ?_, ?_⟩
  · intro n hmem
    simp [List.mem_append] at hmem
  · intro hmem
    simp [List.mem_append] at hmem
  · exact List.getLast?_concat _

theorem dispatch_validation_before_demux_witness :
    c4Inputs.githubToken ≠ "" ∧
    EventValidator.isValidEvent c4Inputs.payload = false ∧
    (EventDispatcher.dispatch c4Inputs okEnv "json").1
      = .failed "Invalid event payload" ∧
    (EventDispatcher.dispatch c4Inputs okEnv "json").2.getLast?
      = some .validatePayload := by
  have h := dispatch_validation_before_demux c4Inputs okEnv "json" (by decide) rfl
  exact ⟨by decide, rfl, h.1, h.2.2.2⟩

/-- C5: whenever the payload is structurally valid and the github-token input
is present, dispatch() completes reporting success with the summary outputs
event_name, event_guid, repository and plugins_enabled, for every assignment
of plugin handler behaviors (so even if every handler failed or threw); and
an invocation-level failure can only arise from the missing-token or
invalid-payload precondition class, never from a per-plugin failure. -/
theorem dispatch_success_despite_plugin_failures
    (inputs : EventDispatcher.DispatchInputs) (env : String → HandlerFn)
    (json : String) :
    (inputs.githubToken ≠ "" → EventValidator.isValidEvent inputs.payload = true →
      ∃ outs, (EventDispatcher.dispatch inputs env json).1 = .ok outs ∧
        outs.lookup "event_name" = some inputs.eventName ∧
        outs.lookup "event_guid" = some inputs.runId ∧
        outs.lookup "repository" = some (inputs.repoOwner ++ "/" ++ inputs.repoName) ∧
        outs.lookup "plugins_enabled"
          = some (String.intercalate "," (EventDispatcher.parsePluginsList inputs.plugins))) ∧
    ∀ msg, (EventDispatcher.dispatch inputs env json).1 = .failed msg →
      inputs.githubToken = "" ∨ EventValidator.isValidEvent inputs.payload = false := by
  constructor
  · intro htok hval
    rw [dispatch_ok_eq inputs env json htok hval]
    exact ⟨_, rfl, rfl, rfl, rfl, rfl⟩
  · intro msg hmsg
    by_cases htok : inputs.githubToken = ""
    · exact Or.inl htok
    by_cases hvalf : EventValidator.isValidEvent inputs.payload = false
    · exact Or.inr hvalf
    exfalso
    have hval : EventValidator.isValidEvent inputs.payload = true := by
      cases hb : EventValidator.isValidEvent inputs.payload
      · exact absurd hb hvalf
      · rfl
    rw [dispatch_ok_eq inputs env json htok hval] at hmsg
    simp at hmsg

def c5Env : String → HandlerFn :=
  fun _ => fun _ _ _ => .throwEx (.errorObj "every plugin fails")

def c5Inputs : EventDispatcher.DispatchInputs :=
  { githubToken := "token", plugins := "dog,cat", eventName := "issue_comment",
    payload := .objV [("comment", .objV [("body", .strV "/woof")]),
      ("issue", .objV [])],
    runId := "42", runNumber := "5", repoOwner := "octo", repoName := "repo",
    sha := "abc", ref := "refs/heads/main", actor := "alice", workflow := "ci" }

theorem dispatch_success_despite_plugin_failures_witness :
    c5Inputs.githubToken ≠ "" ∧
    EventValidator.isValidEvent c5Inputs.payload = true ∧
    ∃ outs, (EventDispatcher.dispatch c5Inputs c5Env "json").1 = .ok outs ∧
      outs.lookup "event_name" = some "issue_comment" ∧
      outs.lookup "event_guid" = some "42" ∧
      outs.lookup "repository" = some "octo/repo" ∧
      outs.lookup "plugins_enabled" = some "dog,cat" := by
  refine ⟨by decide, rfl, ?_⟩
  obtain ⟨outs, h1, h2, h3, h4, h5⟩ :=
    (dispatch_success_despite_plugin_failures c5Inputs c5Env "json").1 (by decide) rfl
  exact ⟨outs, h1, h2, h3, h4, by rw [h5]; decide⟩

def c7BadInputs : EventDispatcher.DispatchInputs :=
  { githubToken := "token", plugins := "dog", eventName := "deployment",
    payload := .nullV, runId := "7", runNumber := "1",
    repoOwner := "o", repoName := "r", sha := "abc", ref := "refs/heads/main",
    actor := "alice", workflow := "ci" }

/-- C7 counterexample: the event name "deployment" is outside the demux
table, yet with a null (structurally invalid) payload the invocation
completes with the invocation-level failure "Invalid event payload" rather
than reporting success, so the claim does not hold for every payload. -/
theorem dispatch_unknown_event_cex :
    "deployment" ∉ EventDispatcher.demuxTableNames ∧
    (EventDispatcher.dispatch c7BadInputs okEnv "json").1
      = .failed "Invalid event payload" := by
  refine ⟨by decide, by rfl⟩

/-- C7 amended: for every raw event name outside the six demux-table names,
provided the payload is structurally valid and the github-token input is
present, the demux selects no category, no plugin handler runs, and the
invocation still completes reporting success. -/
theorem dispatch_unknown_event_noop_success
    (inputs : EventDispatcher.DispatchInputs) (env : String → HandlerFn)
    (json : String)
    (hname : inputs.eventName ∉ EventDispatcher.demuxTableNames)
    (htok : inputs.githubToken ≠ "")
    (hval : EventValidator.isValidEvent inputs.payload = true) :
    EventDispatcher.demuxEvent inputs.eventName inputs.payload = none ∧
    (∃ outs, (EventDispatcher.dispatch inputs env json).1 = .ok outs) ∧
    ∀ n, EventDispatcher.Step.handlerRun n
      ∉ (EventDispatcher.dispatch inputs env json).2 := by
  simp only [EventDispatcher.demuxTableNames, List.mem_cons, List.not_mem_nil,
    or_false, not_or] at hname
  obtain ⟨h1, h2, h3, h4, h5, h6⟩ := hname
  have hdm : EventDispatcher.demuxEvent inputs.eventName inputs.payload = none := by
    simp [EventDispatcher.demuxEvent, h1, h2, h3, h4, h5, h6]
  have hdm' : EventDispatcher.demuxEvent
      (EventDispatcher.buildContext inputs).eventName inputs.payload = none := hdm
  refine ⟨hdm, ?_, ?_⟩
  · rw [dispatch_ok_eq inputs env json htok hval]
    exact ⟨_, rfl⟩
  · intro n hmem
    rw [dispatch_ok_eq inputs env json htok hval] at hmem
    rw [hdm'] at hmem
    simp [List.mem_append, EventDispatcher.categoryRuns] at hmem

def c7Inputs : EventDispatcher.DispatchInputs :=
  { githubToken := "token", plugins := "dog", eventName := "deployment",
    payload := .objV [("deployment", .objV [])], runId := "7", runNumber := "1",
    repoOwner := "o", repoName := "r", sha := "abc", ref := "refs/heads/main",
    actor := "alice", workflow := "ci" }

theorem dispatch_unknown_event_noop_success_witness :
    "deployment" ∉ EventDispatcher.demuxTableNames ∧
    c7Inputs.githubToken ≠ "" ∧
    EventValidator.isValidEvent c7Inputs.payload = true ∧
    EventDispatcher.demuxEvent "deployment" c7Inputs.payload = none ∧
    (∃ outs, (EventDispatcher.dispatch c7Inputs okEnv "json").1 = .ok outs) ∧
    EventDispatcher.Step.handlerRun "dog"
      ∉ (EventDispatcher.dispatch c7Inputs okEnv "json").2 := by
  have h := dispatch_unknown_event_noop_success c7Inputs okEnv "json"
    (by decide) (by decide) rfl
  exact ⟨by decide, by decide, rfl, h.1, h.2.1, h.2.2 "dog"⟩

theorem registeredNames_append (a b : List EventDispatcher.Step) :
    EventDispatcher.registeredNames (a ++ b)
      = EventDispatcher.registeredNames a ++ EventDispatcher.registeredNames b :=
  List.filterMap_append a b _

theorem registeredNames_registerSteps (reg : PluginRegistry) :
    EventDispatcher.registeredNames
        (reg.map (fun p => EventDispatcher.Step.registerPlugin p.name))
      = reg.map Plugin.name := by
  induction reg with
  | nil => rfl
  | cons p ps ih =>
      simp only [List.map_cons, EventDispatcher.registeredNames,
        List.filterMap_cons] at ih ⊢
      rw [ih]

theorem registeredNames_emitSteps (outs : List (String × String)) :
    EventDispatcher.registeredNames
        (outs.map (fun o => EventDispatcher.Step.emitOutput o.1)) = [] := by
  simp [EventDispatcher.registeredNames, List.filterMap_map, Function.comp]

/-- C9: dispatch() obtains the enabled-plugin list by splitting the plugins
input on commas, trimming entries and dropping empty ones, defaulting to the
literal "dog" when the input is absent or empty; names matching none of the
twelve built-ins are silently skipped at registration (the registered names
are exactly the built-in names occurring in the parsed list); yet the
plugins_enabled output is the comma-join of the full parsed list, so it can
name plugins that were never registered. -/
theorem plugins_enabled_lists_parsed_not_registered
    (inputs : EventDispatcher.DispatchInputs) (env : String → HandlerFn)
    (json : String)
    (htok : inputs.githubToken ≠ "")
    (hval : EventValidator.isValidEvent inputs.payload = true) :
    ∃ outs, (EventDispatcher.dispatch inputs env json).1 = .ok outs ∧
      outs.lookup "plugins_enabled"
        = some (String.intercalate ","
            (EventDispatcher.parsePluginsList inputs.plugins)) ∧
      EventDispatcher.registeredNames (EventDispatcher.dispatch inputs env json).2
        = EventDispatcher.builtInNames.filter
            (fun n => (EventDispatcher.parsePluginsList inputs.plugins).contains n) := by
  rw [dispatch_ok_eq inputs env json htok hval]
  refine ⟨_, rfl, rfl, ?_⟩
  rw [registeredNames_append, registeredNames_append, registeredNames_append,
    registeredNames_append]
  rw [registeredNames_registerSteps, registeredNames_categoryRuns]
  rw [registerBuiltInPlugins_names]
  simp [EventDispatcher.registeredNames]

def c9Inputs : EventDispatcher.DispatchInputs :=
  { githubToken := "token", plugins := "dog, unicorn ,,",
    eventName := "deployment", payload := .objV [], runId := "7",
    runNumber := "1", repoOwner := "o", repoName := "r", sha := "abc",
    ref := "refs/heads/main", actor := "alice", workflow := "ci" }

theorem plugins_enabled_lists_parsed_not_registered_witness :
    EventDispatcher.parsePluginsList "" = ["dog"] ∧
    EventDispatcher.parsePluginsList "dog, unicorn ,," = ["dog", "unicorn"] ∧
    ∃ outs, (EventDispatcher.dispatch c9Inputs okEnv "json").1 = .ok outs ∧
      outs.lookup "plugins_enabled" = some "dog,unicorn" ∧
      EventDispatcher.registeredNames
        (EventDispatcher.dispatch c9Inputs okEnv "json").2 = ["dog"] := by
  refine ⟨by decide, by decide, ?_⟩
  obtain ⟨outs, h1, h2, h3⟩ :=
    plugins_enabled_lists_parsed_not_registered c9Inputs okEnv "json" (by decide) rfl
  refine ⟨outs, h1, ?_, ?_⟩
  · rw [h2]; decide
  · rw [h3]; decide
